import Mathlib

/-!
Verification of the xipfs core against its specification.

This file shallowly embeds the xipfs sources (src/src/flash.c, buffer.c,
file.c, fs.c, desc.c, path.c, driver.c) over a byte-addressed model of the
NVM flash.  Machine pointers and size_t values are modelled as Nat with an
explicit `% 2^32` where 32-bit wrap-around matters.  The board constants are
those of boards/dwm1001/xipfs_config.h.  Host-provided primitives
(xipfs_nvm_addr, xipfs_nvm_page, xipfs_nvm_erase, xipfs_nvm_write,
flashpage_write_and_verify) are not part of src/ and are modelled from the
spec, as noted on their definitions.
-/

set_option maxRecDepth 1000000

namespace Xipfs

/-! ## Board configuration constants (boards/dwm1001/xipfs_config.h) -/

def XIPFS_PATH_MAX : Nat := 64

def XIPFS_MAGIC : Nat := 0xf9d3b6cb

def XIPFS_FILESIZE_SLOT_MAX : Nat := 86

def XIPFS_NVM_BASE : Nat := 0

def XIPFS_NVM_ERASE_STATE : Nat := 0xff

def XIPFS_NVM_NUMOF : Nat := 128

def XIPFS_NVM_PAGE_SIZE : Nat := 4096

def XIPFS_MAX_OPEN_DESC : Nat := 16

/-- include/flash.h: the erase state of the NVM as a 32-bit value. -/
def XIPFS_FLASH_ERASE_STATE : Nat := 0xffffffff

/-- sizeof(xipfs_file_t) on the 32-bit ARM target: next pointer (4) +
path[64] + reserved (4) + size[86] (4 each, 344) + exec (4) = 420 bytes,
with no padding since every member is 4-byte aligned or a char array. -/
def sizeofXipfsFile : Nat := 420

/-- 2^32, the modulus of the 32-bit pointer and size_t arithmetic. -/
def U32 : Nat := 4294967296

/-- 32-bit unsigned subtraction p - k (two's-complement wrap-around). -/
def usub32 (p k : Nat) : Nat := (p + (U32 - k % U32)) % U32

/-! ## Byte-addressed flash model -/

/-- The NVM flash: a map from byte address to byte value. -/
def Flash : Type := Nat → Nat

/-- A fully erased flash. -/
def flashErased : Flash := fun _ => XIPFS_NVM_ERASE_STATE

/-- Modelled from the spec: host primitive `xipfs_nvm_addr(page)` returns the
starting address of the given page (§6). -/
def xipfs_nvm_addr (page : Nat) : Nat := XIPFS_NVM_BASE + page * XIPFS_NVM_PAGE_SIZE

/-- Modelled from the spec: host primitive `xipfs_nvm_page(addr)` returns the
page containing the given address (§6). -/
def xipfs_nvm_page (addr : Nat) : Nat := (addr - XIPFS_NVM_BASE) / XIPFS_NVM_PAGE_SIZE

/-- Modelled from the spec: host primitive `xipfs_nvm_erase(page)` sets every
byte of the page to the erase state (§6). -/
def xipfs_nvm_erase (f : Flash) (page : Nat) : Flash :=
  fun a => if xipfs_nvm_addr page ≤ a ∧ a < xipfs_nvm_addr (page + 1) then XIPFS_NVM_ERASE_STATE else f a

/-- Read n consecutive bytes starting at addr. -/
def readBytes (f : Flash) (addr n : Nat) : List Nat :=
  (List.range n).map fun i => f (addr + i)

/-- Store a list of bytes at consecutive addresses starting at addr: the
byte-by-byte store loops of the source write bs[0] at addr, bs[1] at addr+1,
and so on, so the stored flash maps addr + i to bs[i] inside the written
range and is unchanged elsewhere (get? is none past the end of bs). -/
def writeBytes (f : Flash) (addr : Nat) (bs : List Nat) : Flash :=
  fun a => if addr ≤ a then (bs.get? (a - addr)).getD (f a) else f a

/-- Whether p holds on lo, lo+1, ..., lo+n-1, computed by halving (the fuel
only bounds the halving depth, so evaluation recurses logarithmically in n;
any fuel ≥ n works).  The byte-scan loops of the source are linear walks of
the same range; allRange_iff below states the equivalence. -/
def allRangeAux (p : Nat → Bool) : Nat → Nat → Nat → Bool
  | _, _, 0 => true
  | _, lo, 1 => p lo
  | 0, _, _ => false
  | fuel + 1, lo, n => allRangeAux p fuel lo (n / 2) && allRangeAux p fuel (lo + n / 2) (n - n / 2)

/-- Whether p holds on lo, lo+1, ..., lo+n-1. -/
def allRange (p : Nat → Bool) (lo n : Nat) : Bool := allRangeAux p n lo n

/-- Read a little-endian 32-bit word, as the 32-bit loads of the source do. -/
def readWord32 (f : Flash) (addr : Nat) : Nat :=
  f addr + 256 * f (addr + 1) + 65536 * f (addr + 2) + 16777216 * f (addr + 3)

/-- The four little-endian bytes of a 32-bit value. -/
def le32 (v : Nat) : List Nat :=
  [v % 256, v / 256 % 256, v / 65536 % 256, v / 16777216 % 256]

/-! ## flash.c -/

/-- flash.c xipfs_flash_base_addr. -/
def xipfs_flash_base_addr : Nat := XIPFS_NVM_BASE

/-- flash.c xipfs_flash_end_addr. -/
def xipfs_flash_end_addr : Nat := XIPFS_NVM_BASE + XIPFS_NVM_NUMOF * XIPFS_NVM_PAGE_SIZE

/-- flash.c xipfs_flash_in.  The macro XIPFS_CPU_FLASH_BASE is nowhere
defined, so the preprocessor treats `XIPFS_CPU_FLASH_BASE > 0` as `0 > 0`
and the lower-bound comparison is compiled out: only `val < end` remains.
The function returns the C int 1 or 0, never a negative value. -/
def xipfs_flash_in (addr : Nat) : Int :=
  if addr < xipfs_flash_end_addr then 1 else 0

/-- flash.c xipfs_flash_page_aligned: returns the C int 1 or 0. -/
def xipfs_flash_page_aligned (addr : Nat) : Int :=
  if addr % XIPFS_NVM_PAGE_SIZE = 0 then 1 else 0

/-- flash.c xipfs_flash_is_erased_page: every byte of the page equals the
erase state. -/
def xipfs_flash_is_erased_page (f : Flash) (page : Nat) : Bool :=
  allRange (fun a => f a == XIPFS_NVM_ERASE_STATE) (xipfs_nvm_addr page) XIPFS_NVM_PAGE_SIZE

/-- flash.c xipfs_flash_erase_page with the host erase primitive modelled as
always succeeding: the erase is skipped when the page already reads erased,
and the verify-after-erase always passes, so the -1 branch is dropped. -/
def xipfs_flash_erase_page (f : Flash) (page : Nat) : Flash :=
  if xipfs_flash_is_erased_page f page then f else xipfs_nvm_erase f page

/-- flash.c xipfs_flash_write_unaligned.  Each loop iteration reads the
4-byte-aligned word containing the target byte, clears that byte by AND,
sets it by OR, programs the word back with xipfs_nvm_write and verifies the
read-back.  Under the spec's plain-store semantics of xipfs_nvm_write the
three untouched bytes of the word are rewritten with the values just read,
so each iteration stores exactly the addressed byte and the read-back
verification always matches; the loop is therefore a byte-wise store.  dest
and source ranges never overlap at the call sites (the compaction copies
whole distinct pages), so reading the source list first is equivalent to the
source's interleaved reads. -/
def xipfs_flash_write_unaligned (f : Flash) (dest : Nat) (src : List Nat) : Flash :=
  writeBytes f dest src

/-- flash.c xipfs_flash_write_unaligned when the source bytes themselves lie
in flash, as in the compaction copies of fs.c xipfs_fs_remove: iteration i
stores the byte read from src + i at dest + i.  At both call sites dest and
src are XIPFS_NVM_PAGE_SIZE apart or more and the length is at most a page,
so the two ranges never overlap and the interleaved reads of the source see
the unmodified source bytes. -/
def xipfs_flash_copy (f : Flash) (dest src n : Nat) : Flash :=
  fun a => if dest ≤ a ∧ a < dest + n then f (src + (a - dest)) else f a

/-! ## Mount point (include/xipfs.h xipfs_mount_t)

The mount path string and the two mutex pointers play no role in the
verified functions and are omitted. -/

structure Mount where
  magic : Nat
  page_num : Nat
  page_addr : Nat
deriving DecidableEq, Repr

/-! ## file.c: path and record validation -/

/-- file.c xipfs_file_path_charset_check. -/
def xipfs_file_path_charset_check (c : Nat) : Bool :=
  decide ((48 ≤ c ∧ c ≤ 57) ∨ (65 ≤ c ∧ c ≤ 90) ∨ (97 ≤ c ∧ c ≤ 122) ∨
          c = 47 ∨ c = 46 ∨ c = 45 ∨ c = 95)

/-- file.c xipfs_file_path_check, main loop: scan from addr with the given
fuel (PATH_MAX); stop at a null byte, check the charset of every byte on the
way, and when the fuel runs out require a terminator at the current
position, as the source's post-loop `path[i] != '\0'` test does. -/
def cstrScan (g : Nat → Nat) (addr : Nat) : Nat → Bool
  | 0 => g addr == 0
  | fuel + 1 =>
    if g addr == 0 then true
    else xipfs_file_path_charset_check (g addr) && cstrScan g (addr + 1) fuel

/-- file.c xipfs_file_path_check on a path stored in flash at addr (the NULL
pointer case cannot arise in the model). -/
def xipfs_file_path_check_flash (f : Flash) (addr : Nat) : Bool :=
  (f addr != 0) && cstrScan f addr XIPFS_PATH_MAX

/-- file.c xipfs_file_path_check on a path given as a byte list (the bytes
of the C string without its terminator; reads past the end yield 0 exactly
as reading the terminator and its trailing null padding would). -/
def xipfs_file_path_check_list (p : List Nat) : Bool :=
  xipfs_file_path_check_flash (fun i => p.getD i 0) 0

/-- The next field of the record header at filp: a 32-bit pointer at offset 0. -/
def fldNext (f : Flash) (filp : Nat) : Nat := readWord32 f filp

/-- The reserved field of the record header at filp: offset 4 + 64 = 68. -/
def fldReserved (f : Flash) (filp : Nat) : Nat := readWord32 f (filp + 68)

/-- The exec field of the record header at filp: offset 68 + 4 + 344 = 416. -/
def fldExec (f : Flash) (filp : Nat) : Nat := readWord32 f (filp + 416)

/-- The i-th size slot of the record header at filp: offset 72 + 4 i. -/
def fldSize (f : Flash) (filp i : Nat) : Nat := readWord32 f (filp + 72 + 4 * i)

/-- file.c xipfs_file_filp_check.  The source compares the 0/1-valued
predicates xipfs_flash_page_aligned and xipfs_flash_in against `< 0` for
filp itself, and against `== 0` for filp->next; both comparisons are
reproduced verbatim.  Pointer addition (uintptr_t)filp + reserved is 32-bit. -/
def xipfs_file_filp_check (f : Flash) (filp : Nat) : Bool :=
  if filp = 0 then false
  else if xipfs_flash_page_aligned filp < 0 then false
  else if xipfs_flash_in filp < 0 then false
  else if fldNext f filp = 0 then false
  else if fldNext f filp ≠ filp ∧
          (xipfs_flash_page_aligned (fldNext f filp) = 0 ∨
           xipfs_flash_in (fldNext f filp) = 0 ∨
           fldNext f filp ≤ filp ∨
           (filp + fldReserved f filp) % U32 ≠ fldNext f filp) then false
  else if xipfs_file_path_check_flash f (filp + 4) = false then false
  else if fldExec f filp ≠ 0 ∧ fldExec f filp ≠ 1 then false
  else true

/-- file.c xipfs_file_get_max_pos: reserved - sizeof(xipfs_file_t), or -1
when the record does not validate. -/
def xipfs_file_get_max_pos (f : Flash) (filp : Nat) : Int :=
  if xipfs_file_filp_check f filp = false then -1
  else (fldReserved f filp : Int) - (sizeofXipfsFile : Int)

/-! ## file.c: size-slot rotation

The size list lives in the record header; the source reads the slots by
direct dereference, so the list of the 86 slot values is the natural state
for these two functions.  A slot holds the erased pattern 0xffffffff until
written. -/

/-- file.c xipfs_file_get_size_, main loop: walk i = 1, 2, ... while i <
SLOTS; at the first erased slot return the previous one.  When the fuel
runs out (i = SLOTS) the source reads the last slot through the page buffer;
after the flush that xipfs_file_set_size performs the buffer and the flash
agree, so the buffered read returns the stored slot value. -/
def getSizeAux (sizes : List Nat) (i : Nat) : Nat → Nat
  | 0 => sizes.getD (i - 1) 0
  | fuel + 1 =>
    if sizes.getD i 0 = XIPFS_FLASH_ERASE_STATE then sizes.getD (i - 1) 0
    else getSizeAux sizes (i + 1) fuel

/-- file.c xipfs_file_get_size_: 0 when slot 0 is erased, otherwise the slot
preceding the first erased one, or the last slot when none is erased. -/
def xipfs_file_get_size_ (sizes : List Nat) : Nat :=
  if sizes.getD 0 0 = XIPFS_FLASH_ERASE_STATE then 0
  else getSizeAux sizes 1 (XIPFS_FILESIZE_SLOT_MAX - 1)

/-- file.c xipfs_file_set_size, scan loop: `while (i < SLOTS) { if
(size[i] != ERASE) break; i++; }` starting at i = 1 — the loop stops at the
first slot that is NOT erased, and runs to i = SLOTS when every slot from 1
on is erased. -/
def setSizeScan (sizes : List Nat) (i : Nat) : Nat → Nat
  | 0 => i
  | fuel + 1 =>
    if sizes.getD i 0 ≠ XIPFS_FLASH_ERASE_STATE then i
    else setSizeScan sizes (i + 1) fuel

/-- file.c xipfs_file_set_size on a record whose header validates: scan from
slot 1, reduce the index modulo SLOTS, then write the new size into that
slot through the page buffer and flush.  The returned list is the slot
array as the flush leaves it in flash. -/
def xipfs_file_set_size (sizes : List Nat) (size : Nat) : List Nat :=
  let i := setSizeScan sizes 1 (XIPFS_FILESIZE_SLOT_MAX - 1) % XIPFS_FILESIZE_SLOT_MAX
  sizes.set i size

/-- The slot index that the specification's rotation prescribes: the first
erased slot, written so that get-size then reports the new value (spec
§4.3, claim C3).  This definition follows the spec's words, for comparison
with xipfs_file_set_size which follows the source. -/
def specFirstErasedSlot (sizes : List Nat) : Nat :=
  match (List.range XIPFS_FILESIZE_SLOT_MAX).find?
      (fun i => sizes.getD i 0 == XIPFS_FLASH_ERASE_STATE) with
  | some i => i
  | none => 0

/-! ## Page buffer (buffer.c)

The buffer is the single RAM scratch of one flash page.  The C structure
keeps both the page number and the page address; the address is always
xipfs_nvm_addr of the number, so only the number is kept.  `ok` is the
state field (XIPFS_BUFFER_OK / XIPFS_BUFFER_KO). -/

structure XBuf where
  ok : Bool
  buf : Nat → Nat
  page_num : Nat

structure Sys where
  flash : Flash
  buf : XBuf

/-- The buffer contents after the success-path memset of buffer.c
xipfs_buffer_flush: all zero bytes, page 0, state KO. -/
def emptyBuf : XBuf := { ok := false, buf := fun _ => 0, page_num := 0 }

/-- buffer.c xipfs_buffer_page_changed. -/
def xipfs_buffer_page_changed (s : Sys) (num : Nat) : Bool :=
  s.buf.page_num != num

/-- buffer.c xipfs_buffer_need_flush: never when the state is KO, otherwise
when some byte of the RAM page differs from the flash page. -/
def xipfs_buffer_need_flush (s : Sys) : Bool :=
  s.buf.ok && !(allRange (fun i => s.buf.buf i == s.flash (xipfs_nvm_addr s.buf.page_num + i))
                  0 XIPFS_NVM_PAGE_SIZE)

/-- Modelled from the spec: the host page-program primitive
(flashpage_write_and_verify) writes one whole page from a RAM buffer (§6). -/
def flashProgramPage (f : Flash) (num : Nat) (b : Nat → Nat) : Flash :=
  fun a => if xipfs_nvm_addr num ≤ a ∧ a < xipfs_nvm_addr (num + 1)
           then b (a - xipfs_nvm_addr num) else f a

/-- buffer.c xipfs_buffer_flush with the flash primitives modelled as always
succeeding: no-op unless a flush is needed, otherwise erase the page,
program it from the RAM scratch, clear the buffer structure and mark it KO. -/
def xipfs_buffer_flush (s : Sys) : Sys :=
  if xipfs_buffer_need_flush s = false then s
  else { flash := flashProgramPage (xipfs_flash_erase_page s.flash s.buf.page_num)
                    s.buf.page_num s.buf.buf,
         buf := emptyBuf }

/-- buffer.c xipfs_buffer_load: copy the flash page into the RAM scratch. -/
def xipfs_buffer_load (s : Sys) (num : Nat) : Sys :=
  { s with buf := { ok := true,
                    buf := fun i => s.flash (xipfs_nvm_addr num + i),
                    page_num := num } }

/-- The shared prologue of the per-byte loops of buffer.c xipfs_buffer_read
and xipfs_buffer_write: load the page when the buffer is KO, flush then load
when the buffered page differs from the requested one. -/
def bufPrep (s : Sys) (num : Nat) : Sys :=
  if s.buf.ok = false then xipfs_buffer_load s num
  else if xipfs_buffer_page_changed s num then xipfs_buffer_load (xipfs_buffer_flush s) num
  else s

/-- One iteration of the buffer.c xipfs_buffer_write loop body (after its
dead flash_in guard): prepare the buffer for the page of ptr and store the
byte at the in-page offset. -/
def bufPoke (s : Sys) (ptr b : Nat) : Sys :=
  let s2 := bufPrep s (xipfs_nvm_page ptr)
  { s2 with buf := { s2.buf with
      buf := fun i => if i = ptr % XIPFS_NVM_PAGE_SIZE then b else s2.buf.buf i } }

/-- One iteration of the buffer.c xipfs_buffer_read loop body (after its
dead flash_in guard): prepare the buffer and read the in-page offset. -/
def bufPeek (s : Sys) (ptr : Nat) : Sys × Nat :=
  let s2 := bufPrep s (xipfs_nvm_page ptr)
  (s2, s2.buf.buf (ptr % XIPFS_NVM_PAGE_SIZE))

/-- buffer.c xipfs_buffer_write: per-byte loop; the source guards every byte
with `if (xipfs_flash_in(ptr) < 0) return -1`, reproduced here as the none
branch. -/
def xipfs_buffer_write (s : Sys) (dest : Nat) : List Nat → Option Sys
  | [] => some s
  | b :: bs =>
    if xipfs_flash_in dest < 0 then none
    else xipfs_buffer_write (bufPoke s dest b) (dest + 1) bs

/-- buffer.c xipfs_buffer_read: per-byte loop with the same dead guard. -/
def xipfs_buffer_read (s : Sys) (src : Nat) : Nat → Option (Sys × List Nat)
  | 0 => some (s, [])
  | n + 1 =>
    if xipfs_flash_in src < 0 then none
    else
      match xipfs_buffer_read (bufPeek s src).1 (src + 1) n with
      | none => none
      | some (s2, vs) => some (s2, (bufPeek s src).2 :: vs)

/-- buffer.c xipfs_buffer_write_8. -/
def xipfs_buffer_write_8 (s : Sys) (dest b : Nat) : Option Sys :=
  xipfs_buffer_write s dest [b]

/-- buffer.c xipfs_buffer_read_8. -/
def xipfs_buffer_read_8 (s : Sys) (src : Nat) : Option (Sys × Nat) :=
  match xipfs_buffer_read s src 1 with
  | none => none
  | some (s2, vs) => some (s2, vs.getD 0 0)

/-- The flash overlaid with the page buffer: what a buffered read at the
address observes, and what a flush commits to flash. -/
def bufView (s : Sys) : Nat → Nat :=
  fun a => if s.buf.ok = true ∧ xipfs_nvm_page a = s.buf.page_num
           then s.buf.buf (a % XIPFS_NVM_PAGE_SIZE) else s.flash a

/-! ## Fallible flush (for claim C9)

flash.c xipfs_flash_erase_page and the host program primitive with explicit
failure outcomes.  `eraseOk` tells whether the host nvm_erase takes effect,
`progOk` whether flashpage_write_and_verify succeeds; a failing operation is
modelled as leaving the flash unchanged. -/

/-- flash.c xipfs_flash_erase_page where the host erase may fail: skip when
already erased; erase; verify; none (errno XIPFS_ENVMC, return -1) when the
page still is not erased. -/
def xipfs_flash_erase_page_f (eraseOk : Bool) (f : Flash) (page : Nat) : Option Flash :=
  if xipfs_flash_is_erased_page f page then some f
  else
    let f2 := if eraseOk then xipfs_nvm_erase f page else f
    if xipfs_flash_is_erased_page f2 page then some f2 else none

/-- buffer.c xipfs_buffer_flush with fallible flash operations.  Returns the
resulting system state and the C return value (0 or -1).  The memset that
empties the buffer happens only on the all-success path, exactly as in the
source. -/
def xipfs_buffer_flush_f (eraseOk progOk : Bool) (s : Sys) : Sys × Int :=
  if xipfs_buffer_need_flush s = false then (s, 0)
  else
    match xipfs_flash_erase_page_f eraseOk s.flash s.buf.page_num with
    | none => (s, -1)
    | some f2 =>
      if progOk then
        ({ flash := flashProgramPage f2 s.buf.page_num s.buf.buf, buf := emptyBuf }, 0)
      else ({ s with flash := f2 }, -1)

/-! ## file.c: byte-granular reads and writes -/

/-- file.c xipfs_file_read_8: validate the record against the raw flash,
bound the position by get_max_pos, then read `&filp->buf[pos]`, the address
filp + sizeof(xipfs_file_t) + pos, through the buffer. -/
def xipfs_file_read_8 (s : Sys) (filp : Nat) (pos : Int) : Option (Sys × Nat) :=
  if xipfs_file_filp_check s.flash filp = false then none
  else if xipfs_file_get_max_pos s.flash filp < 0 then none
  else if pos < 0 ∨ pos > xipfs_file_get_max_pos s.flash filp then none
  else xipfs_buffer_read_8 s (filp + sizeofXipfsFile + pos.toNat)

/-- file.c xipfs_file_write_8: same guards, then write the byte through the
buffer at filp + sizeof(xipfs_file_t) + pos. -/
def xipfs_file_write_8 (s : Sys) (filp : Nat) (pos : Int) (b : Nat) : Option Sys :=
  if xipfs_file_filp_check s.flash filp = false then none
  else if xipfs_file_get_max_pos s.flash filp < 0 then none
  else if pos < 0 ∨ pos > xipfs_file_get_max_pos s.flash filp then none
  else xipfs_buffer_write_8 s (filp + sizeofXipfsFile + pos.toNat) b

/-- Write bytes b 0, ..., b (n-1) at file positions o, o+1, ... through
xipfs_file_write_8, flushing the page buffer after the k-th write whenever
fls k is set (the claim's arbitrary intervening flushes). -/
def fileWriteSeq (filp o : Nat) (b : Nat → Nat) (fls : Nat → Bool) (s : Sys) : Nat → Option Sys
  | 0 => some s
  | k + 1 =>
    match fileWriteSeq filp o b fls s k with
    | none => none
    | some s1 =>
      match xipfs_file_write_8 s1 filp ((o + k : Nat) : Int) (b k) with
      | none => none
      | some s2 => some (if fls k then xipfs_buffer_flush s2 else s2)

/-- Read cnt bytes at file positions pos, pos+1, ... through
xipfs_file_read_8, threading the system state. -/
def fileReadSeq (filp : Nat) (s : Sys) (pos : Nat) : Nat → Option (Sys × List Nat)
  | 0 => some (s, [])
  | cnt + 1 =>
    match xipfs_file_read_8 s filp ((pos : Nat) : Int) with
    | none => none
    | some (s1, v) =>
      match fileReadSeq filp s1 (pos + 1) cnt with
      | none => none
      | some (s2, vs) => some (s2, v :: vs)

/-! ## fs.c: chain walk and allocator -/

/-- fs.c xipfs_fs_head.  `.error ()` stands for the NULL return with
xipfs_errno set; `.ok none` for the benign "no file" NULL. -/
def xipfs_fs_head (f : Flash) (mp : Mount) : Except Unit (Option Nat) :=
  if readWord32 f mp.page_addr = XIPFS_FLASH_ERASE_STATE then .ok none
  else if xipfs_file_filp_check f mp.page_addr = false then .error ()
  else .ok (some mp.page_addr)

/-- fs.c xipfs_fs_next: NULL with errno when a validation fails, benign NULL
when the record is self-referential (file system full) or the successor
region is erased (last record). -/
def xipfs_fs_next (f : Flash) (filp : Nat) : Except Unit (Option Nat) :=
  if xipfs_file_filp_check f filp = false then .error ()
  else if fldNext f filp = filp then .ok none
  else if readWord32 f (fldNext f filp) = XIPFS_FLASH_ERASE_STATE then .ok none
  else if xipfs_file_filp_check f (fldNext f filp) = false then .error ()
  else .ok (some (fldNext f filp))

/-- fs.c xipfs_fs_tail, do-while loop.  Validated chains are strictly
increasing page-aligned addresses below the flash end, so they have at most
XIPFS_NVM_NUMOF records and the fuel XIPFS_NVM_NUMOF + 2 never runs out on
them; fuel exhaustion is reported as the error case. -/
def fsTailGo (f : Flash) (cur : Nat) : Nat → Except Unit Nat
  | 0 => .error ()
  | fuel + 1 =>
    match xipfs_fs_next f cur with
    | .error _ => .error ()
    | .ok none => .ok cur
    | .ok (some nxt) => fsTailGo f nxt fuel

/-- fs.c xipfs_fs_tail. -/
def xipfs_fs_tail (f : Flash) (mp : Mount) : Except Unit (Option Nat) :=
  match xipfs_fs_head f mp with
  | .error _ => .error ()
  | .ok none => .ok none
  | .ok (some h) => (fsTailGo f h (XIPFS_NVM_NUMOF + 2)).map some

/-- fs.c xipfs_fs_tail_next: the first free page after the tail, the mount
base when there is no file, `.error ()` on a walk error or when the file
system is full (errno XIPFS_EFULL). -/
def xipfs_fs_tail_next (f : Flash) (mp : Mount) : Except Unit Nat :=
  match xipfs_fs_tail f mp with
  | .error _ => .error ()
  | .ok none => .ok mp.page_addr
  | .ok (some t) => if fldNext f t = t then .error () else .ok (fldNext f t)

/-- fs.c xipfs_fs_free_pages: page_num when empty, otherwise page_num minus
(tail + tail->reserved - head) / PAGE_SIZE.  The source computes `used` in
32-bit integer arithmetic; on chains accepted by the validation tail +
reserved is at least head, where the Nat subtraction used here agrees. -/
def xipfs_fs_free_pages (f : Flash) (mp : Mount) : Option Int :=
  match xipfs_fs_head f mp with
  | .error _ => none
  | .ok none => some (mp.page_num : Int)
  | .ok (some headp) =>
    match xipfs_fs_tail f mp with
    | .error _ => none
    | .ok none => none
    | .ok (some tailp) =>
      some ((mp.page_num : Int) -
        (((tailp + fldReserved f tailp - headp) / XIPFS_NVM_PAGE_SIZE : Nat) : Int))

/-- fs.c xipfs_fs_new_file, reserved computation: ROUND(size +
sizeof(xipfs_file_t), PAGE_SIZE) in 32-bit size_t arithmetic when size > 0,
one page otherwise.  ROUND(x, y) = (x + y - 1) & ~(y - 1); for the
power-of-two page size the mask clears the low 12 bits, i.e. it is
truncation to a multiple of 4096 of the wrapped sum. -/
def newFileReserved (size : Nat) : Nat :=
  if size > 0 then
    (size + sizeofXipfsFile + (XIPFS_NVM_PAGE_SIZE - 1)) % U32
      / XIPFS_NVM_PAGE_SIZE * XIPFS_NVM_PAGE_SIZE
  else XIPFS_NVM_PAGE_SIZE

/-- fs.c xipfs_fs_new_file, RAM template: memset to the erase byte, then
strncpy of the path into the first PATH_MAX - 1 bytes (chars then null
padding; byte 63 keeps the erase byte), reserved, next and exec fields set;
serialized to the 420 header bytes in the on-flash field order next, path,
reserved, size, exec. -/
def headerBytes (next : Nat) (path : List Nat) (reserved exec : Nat) : List Nat :=
  le32 next ++
  (path.take (XIPFS_PATH_MAX - 1) ++
    List.replicate (XIPFS_PATH_MAX - 1 - path.length) 0 ++ [XIPFS_NVM_ERASE_STATE]) ++
  le32 reserved ++
  List.replicate (4 * XIPFS_FILESIZE_SLOT_MAX) XIPFS_NVM_ERASE_STATE ++
  le32 exec

/-- fs.c xipfs_fs_new_file: validate the path and the exec flag, locate the
first free page, compare the pages to reserve with the free pages (fewer:
next = self + reserved; equal: next = self; more: NoSpace, none), then
program the header template through the page buffer and flush. -/
def xipfs_fs_new_file (s : Sys) (mp : Mount) (path : List Nat) (size exec : Nat) :
    Option (Nat × Sys) :=
  if xipfs_file_path_check_list path = false then none
  else if exec ≠ 0 ∧ exec ≠ 1 then none
  else
    match xipfs_fs_tail_next s.flash mp with
    | .error _ => none
    | .ok filp =>
      match xipfs_fs_free_pages s.flash mp with
      | none => none
      | some fp =>
        let reserved := newFileReserved size
        let rpages : Nat := reserved / XIPFS_NVM_PAGE_SIZE
        if (rpages : Int) < fp then
          match xipfs_buffer_write s filp
              (headerBytes ((filp + reserved) % U32) path reserved exec) with
          | none => none
          | some s1 => some (filp, xipfs_buffer_flush s1)
        else if (rpages : Int) = fp then
          match xipfs_buffer_write s filp
              (headerBytes (filp % U32) path reserved exec) with
          | none => none
          | some s1 => some (filp, xipfs_buffer_flush s1)
        else none

/-- file.c xipfs_file_erase: validate, then erase the reserved / PAGE_SIZE
pages starting at the record's page. -/
def eraseRange (f : Flash) (start : Nat) : Nat → Flash
  | 0 => f
  | n + 1 => eraseRange (xipfs_flash_erase_page f start) (start + 1) n

/-- file.c xipfs_file_erase. -/
def xipfs_file_erase (f : Flash) (filp : Nat) : Option Flash :=
  if xipfs_file_filp_check f filp = false then none
  else some (eraseRange f (xipfs_nvm_page filp) (fldReserved f filp / XIPFS_NVM_PAGE_SIZE))

/-- fs.c xipfs_fs_remove, inner page loop (`for i = 1; i < pagenum; i++`):
copy each remaining source page to the destination unless it is already
erased, erasing the source page after the copy; count is pagenum - 1. -/
def removeLoopPages (f : Flash) (dst src : Nat) : Nat → Flash
  | 0 => f
  | k + 1 =>
    let num := xipfs_nvm_page src
    let f2 := if xipfs_flash_is_erased_page f num = false then
                xipfs_flash_erase_page (xipfs_flash_copy f dst src XIPFS_NVM_PAGE_SIZE) num
              else f
    removeLoopPages f2 (dst + XIPFS_NVM_PAGE_SIZE) (src + XIPFS_NVM_PAGE_SIZE) k

/-- fs.c xipfs_fs_remove, consolidation while-loop.  Each iteration slides
the record at src down to dst: memcpy the header, overwrite its next with
dst + size where size = src->next - src (32-bit pointer subtraction),
program the fixed header and the rest of the first page with the unaligned
write, erase the old first page, then copy the remaining size / PAGE_SIZE -
1 pages.  The fuel bounds the chain length as in xipfs_fs_tail. -/
def removeLoop (f : Flash) (dst : Nat) (next : Option Nat) : Nat → Option Flash
  | 0 => none
  | fuel + 1 =>
    match next with
    | none => some f
    | some src =>
      match xipfs_fs_next f src with
      | .error _ => none
      | .ok next2 =>
        let size := usub32 (fldNext f src) src
        let f1 := xipfs_flash_write_unaligned f dst
          (le32 ((dst + size) % U32) ++ readBytes f (src + 4) (sizeofXipfsFile - 4))
        let f2 := xipfs_flash_copy f1 (dst + sizeofXipfsFile) (src + sizeofXipfsFile)
          (XIPFS_NVM_PAGE_SIZE - sizeofXipfsFile)
        let f3 := xipfs_flash_erase_page f2 (xipfs_nvm_page src)
        let pagenum := size / XIPFS_NVM_PAGE_SIZE
        let f4 := removeLoopPages f3 (dst + XIPFS_NVM_PAGE_SIZE) (src + XIPFS_NVM_PAGE_SIZE)
                    (pagenum - 1)
        removeLoop f4 (dst + XIPFS_NVM_PAGE_SIZE + (pagenum - 1) * XIPFS_NVM_PAGE_SIZE)
          next2 fuel

/-- fs.c xipfs_fs_remove: fetch the successor, erase the removed record's
pages, then consolidate. -/
def xipfs_fs_remove (f : Flash) (dst : Nat) : Option Flash :=
  match xipfs_fs_next f dst with
  | .error _ => none
  | .ok next =>
    match xipfs_file_erase f dst with
    | none => none
    | some f1 => removeLoop f1 dst next (XIPFS_NVM_NUMOF + 2)

/-! ## driver.c: mount -/

/-- driver.c xipfs_mp_check (the NULL-pointer case cannot arise in the
model): -22 is -EINVAL. -/
def xipfs_mp_check (mp : Mount) : Int :=
  if mp.magic ≠ XIPFS_MAGIC then -22
  else if xipfs_flash_in mp.page_addr = 0 then -22
  else if mp.page_num = 0 then -22
  else if mp.page_num > XIPFS_NVM_NUMOF then -22
  else if xipfs_nvm_page mp.page_addr + mp.page_num > XIPFS_NVM_NUMOF then -22
  else 0

/-- driver.c xipfs_mount, erased-words scan: `while (start < end) if
(*start++ != ERASE) return -EIO`, reading 32-bit words. -/
def wordsErased (f : Flash) (a endAddr : Nat) : Bool :=
  allRange (fun k => readWord32 f (a + 4 * k) == XIPFS_FLASH_ERASE_STATE)
    0 ((endAddr - a + 3) / 4)

/-- driver.c xipfs_mount: mount-point check, tail walk, tail_next, then the
erased scan up to the end of the mount window; -5 is -EIO. -/
def xipfs_mount (mp : Mount) (f : Flash) : Int :=
  if xipfs_mp_check mp < 0 then xipfs_mp_check mp
  else
    match xipfs_fs_tail f mp with
    | .error _ => -5
    | .ok _ =>
      match xipfs_fs_tail_next f mp with
      | .error _ => -5
      | .ok start =>
        if wordsErased f start (mp.page_addr + mp.page_num * XIPFS_NVM_PAGE_SIZE) then 0
        else -5

/-! ## desc.c: descriptor table -/

inductive DescType where
  | free
  | file
  | dir
deriving DecidableEq, Repr

/-- A slot of the process-wide table together with the record address stored
in the open descriptor structure the slot points to.  A free slot carries no
meaningful address. -/
structure DescEntry where
  dtype : DescType
  filp : Nat
deriving DecidableEq, Repr

/-- desc.c xipfs_desc_update.  For each tracked descriptor whose record
address is not the virtual-file sentinel and lies inside the mount window:
above the removed record the source executes
`descp->filp = (xipfs_file_t *)(uintptr_t)descp->filp - reserved;`
— the cast binds before the subtraction, so this is pointer arithmetic on
xipfs_file_t* and subtracts reserved * sizeof(xipfs_file_t) bytes (32-bit
wrap-around); at the removed record the table slot is freed.  infosAddr is
the address of the xipfs_infos_file sentinel string. -/
def xipfs_desc_update (mp : Mount) (removed reserved infosAddr : Nat)
    (tbl : List DescEntry) : List DescEntry :=
  let start := mp.page_addr
  let endAddr := start + mp.page_num * XIPFS_NVM_PAGE_SIZE
  tbl.map fun e =>
    match e.dtype with
    | .free => e
    | _ =>
      if e.filp ≠ infosAddr then
        if start ≤ e.filp ∧ e.filp < endAddr then
          if removed < e.filp then
            { e with filp := usub32 e.filp (reserved * sizeofXipfsFile) }
          else if e.filp = removed then { e with dtype := .free }
          else e
        else e
      else e

/-! ## path.c: empty-filesystem path classification -/

def XIPFS_PATH_CREATABLE : Nat := 1

def XIPFS_PATH_INVALID_BECAUSE_NOT_FOUND : Nat := 6

/-- The C strncmp on byte lists (bytes of the strings without terminators;
reads past the end yield the terminator 0). -/
def strncmp (a b : List Nat) (n : Nat) : Int :=
  match n with
  | 0 => 0
  | n + 1 =>
    let c1 := a.getD 0 0
    let c2 := b.getD 0 0
    if c1 ≠ c2 then (c1 : Int) - (c2 : Int)
    else if c1 = 0 then 0
    else strncmp a.tail b.tail n

/-- path.c xipfs_path_init, last_slash loop: the index of the last slash
that is followed by a further character. -/
def lastSlashAux (p : List Nat) (i ls : Nat) : Nat → Nat
  | 0 => ls
  | fuel + 1 =>
    if p.getD i 0 = 0 then ls
    else lastSlashAux p (i + 1)
           (if p.getD i 0 = 47 ∧ p.getD (i + 1) 0 ≠ 0 then i else ls) fuel

/-- path.c xipfs_path_init: last_slash is 0 for the root path "/", else the
loop result. -/
def xipfs_path_last_slash (p : List Nat) : Nat :=
  if p.getD 0 0 = 47 ∧ p.getD 1 0 = 0 then 0
  else lastSlashAux p 0 0 (p.length + 1)

/-- path.c xipfs_path_dirname: the characters up to and including the last
slash; "/" for the root path. -/
def xipfs_path_dirname (p : List Nat) : List Nat :=
  if p.getD 0 0 = 47 ∧ p.getD 1 0 = 0 then [47]
  else p.take (xipfs_path_last_slash p + 1)

/-- path.c creatable: strncmp of an existing path against the dirname
prefix. -/
def creatable (path1 dirname2 : List Nat) (len : Nat) : Bool :=
  strncmp path1 dirname2 len == 0

/-- path.c xipfs_path_new_n on an empty file system (xipfs_fs_head returns
the benign NULL), for a single requested path: the empty-filesystem branch
calls creatable("/", path, last_slash > 0 ? last_slash - 1 : 0), and the
final pass turns a still-undefined classification into
INVALID_BECAUSE_NOT_FOUND. -/
def xipfs_path_classify_empty (p : List Nat) : Nat :=
  let ls := xipfs_path_last_slash p
  let ls2 := if ls > 0 then ls - 1 else 0
  if creatable [47] p ls2 then XIPFS_PATH_CREATABLE
  else XIPFS_PATH_INVALID_BECAUSE_NOT_FOUND

/-! ## Concrete states used by the claim theorems -/

/-- A consistent, FULL file system: mount window pages 1..3, record "/a"
(one page, reserved 4096) at 4096, record "/b" (two pages, reserved 8192) at
8192 with a self-referential next (file system full), and one payload byte
0x42 of "/b" in its second page, at address 12388 (payload offset 3776). -/
def flashFull : Flash :=
  writeBytes (writeBytes (writeBytes (writeBytes (writeBytes (writeBytes (writeBytes
    (writeBytes (writeBytes flashErased
      4096 (le32 8192)) 4100 [47, 97, 0]) 4164 (le32 4096)) 4512 (le32 0))
      8192 (le32 8192)) 8196 [47, 98, 0]) 8260 (le32 8192)) 8608 (le32 0))
      12388 [66]

/-- The mount point of flashFull. -/
def mpFull : Mount := { magic := XIPFS_MAGIC, page_num := 3, page_addr := 4096 }

/-- A record header for "/a" at the NON-page-aligned address 100, with a
consistent link (next = 4096 = 100 + reserved 3996, page-aligned and in
flash), a valid path and exec = 0: used by claim C6. -/
def flashUnaligned : Flash :=
  writeBytes (writeBytes (writeBytes (writeBytes flashErased
    100 (le32 4096)) 104 [47, 97, 0]) 168 (le32 3996)) 516 (le32 0)

/-- A single valid one-page record "/a" at 4096 (used by the C8 witness). -/
def flashOneFile : Flash :=
  writeBytes (writeBytes (writeBytes (writeBytes flashErased
    4096 (le32 8192)) 4100 [47, 97, 0]) 4164 (le32 4096)) 4512 (le32 0)

/-- flashOneFile with an empty page buffer. -/
def sysOneFile : Sys := { flash := flashOneFile, buf := emptyBuf }

/-- An empty file system on an erased flash (used by the C4 witness). -/
def sysEmpty : Sys := { flash := flashErased, buf := emptyBuf }

/-- Mount for sysEmpty: pages 1..64. -/
def mpEmpty : Mount := { magic := XIPFS_MAGIC, page_num := 64, page_addr := 4096 }

/-- A dirty page buffer (page 1 loaded, contents all zero) over an erased
flash: the flush has work to do (used by claim C9). -/
def sysDirty : Sys :=
  { flash := flashErased, buf := { ok := true, buf := fun _ => 0, page_num := 1 } }

/-- Descriptor table for claim C1: a file descriptor above the removed
record, a directory descriptor at it, and a free slot. -/
def tblDesc : List DescEntry := [⟨.file, 8192⟩, ⟨.dir, 4096⟩, ⟨.free, 0⟩]

/-- Size-slot array for claim C3: slots 0..2 written (3, 4, 5), the rest
erased; the current size per get-size is 5 and the first erased slot is 3. -/
def sizesEx : List Nat := [3, 4, 5] ++ List.replicate 83 XIPFS_FLASH_ERASE_STATE

/-! # Theorems -/

/-- C1: code-bug evidence.  After removing the record at 4096 with reserved
4096 bytes, the claim requires the tracked file descriptor at 8192 to be
moved to 8192 - 4096 = 4096.  The source's pointer-typed subtraction moves
it to (8192 - 4096 * sizeof(xipfs_file_t)) mod 2^32 = 4293255168 instead,
a dangling address outside the mount window.  The descriptor at the removed
record is freed and the free slot is untouched, as the claim states. -/
theorem xipfs_C1_code_bug :
    xipfs_desc_update mpFull 4096 4096 20000 tblDesc =
      [⟨.file, 4293255168⟩, ⟨.free, 4096⟩, ⟨.free, 0⟩] ∧
    usub32 8192 (4096 * sizeofXipfsFile) ≠ 8192 - 4096 := by decide

/-- C2: code-bug evidence.  flashFull is a consistent FULL file system
("/a" one page at 4096, "/b" two pages at 8192 with self-referential next).
After xipfs_fs_remove of "/a" (reserved 4096) succeeds, the claim requires
the payload byte 66 of "/b", stored at 12388, to sit at 12388 - 4096 = 8292.
The source computes the page count of the slid record from
size = src->next - src, which is 0 for the self-referential tail, so the
second page of "/b" is neither copied (8292 reads erased, 255) nor erased
at its old location (12388 still reads 66). -/
theorem xipfs_C2_code_bug :
    ((xipfs_fs_remove flashFull 4096).map fun f => (f 8292, f 12388)) = some (255, 66) ∧
    flashFull 12388 = 66 ∧ fldReserved flashFull 4096 = 4096 := by decide

/-- C3: code-bug evidence.  For the valid slot array (3, 4, 5, erased...)
the claim requires set-size to write into the first erased slot, index 3,
after which get-size would report the new value 7.  The source's scan
breaks at the first NON-erased slot from index 1, overwrites slot 1, and a
subsequent get-size still reports the old value 5. -/
theorem xipfs_C3_code_bug :
    specFirstErasedSlot sizesEx = 3 ∧
    xipfs_file_set_size sizesEx 7 = [3, 7, 5] ++ List.replicate 83 XIPFS_FLASH_ERASE_STATE ∧
    xipfs_file_get_size_ (xipfs_file_set_size sizesEx 7) = 5 := by decide

/-- C5: code-bug evidence.  flashFull's chain is walkable (tail 8192), the
file system is full (tail's next points to itself) and the tail's reserved
span ends exactly at the mount window end, so no page lies strictly after
it and the claim requires xipfs_mount to succeed.  The source's
xipfs_fs_tail_next signals XIPFS_EFULL, which xipfs_mount turns into -EIO. -/
theorem xipfs_C5_code_bug :
    xipfs_mount mpFull flashFull = -5 ∧
    xipfs_fs_tail flashFull mpFull = Except.ok (some 8192) ∧
    fldNext flashFull 8192 = 8192 ∧
    mpFull.page_addr + mpFull.page_num * XIPFS_NVM_PAGE_SIZE =
      8192 + fldReserved flashFull 8192 :=
  ⟨by decide, rfl, by decide, by decide⟩

/-- C6: code-bug evidence.  The record at address 100 is not page-aligned,
yet xipfs_file_filp_check validates it: the source tests the 0/1-valued
xipfs_flash_page_aligned and xipfs_flash_in predicates with `< 0`, so the
alignment and in-flash checks on the record's own address can never fail. -/
theorem xipfs_C6_code_bug :
    xipfs_file_filp_check flashUnaligned 100 = true ∧
    xipfs_flash_page_aligned 100 = 0 := by decide

/-- C7: counterexample.  In an empty file system the request "/a/b"
(bytes 47 97 47 98) has dirname "/a/", not "/", yet the source classifies
it Creatable: the empty-filesystem branch compares the existing path "/"
with the request over last_slash - 1 = 1 characters only. -/
theorem xipfs_C7_counterexample :
    xipfs_path_classify_empty [47, 97, 47, 98] = XIPFS_PATH_CREATABLE ∧
    xipfs_path_dirname [47, 97, 47, 98] = [47, 97, 47] ∧
    [47, 97, 47] ≠ [47] := by decide

/-- C9: counterexample.  sysDirty needs a flush; with the erase succeeding
and the page program failing the flush returns -1, but the buffer is NOT
left empty: its state field still holds XIPFS_BUFFER_OK, because the memset
that empties the buffer lies on the success path only. -/
theorem xipfs_C9_counterexample :
    (xipfs_buffer_flush_f true false sysDirty).2 = -1 ∧
    (xipfs_buffer_flush_f true false sysDirty).1.buf.ok = true := by decide

/-- getD at 1 is getD at 0 of the tail. -/
theorem getD_one_eq_tail (p : List Nat) : p.tail.getD 0 0 = p.getD 1 0 := by
  cases p <;> rfl

/-- One unfolding step of strncmp. -/
theorem strncmp_succ (a b : List Nat) (n : Nat) :
    strncmp a b (n + 1) =
      if a.getD 0 0 ≠ b.getD 0 0 then ((a.getD 0 0 : Nat) : Int) - ((b.getD 0 0 : Nat) : Int)
      else if a.getD 0 0 = 0 then 0
      else strncmp a.tail b.tail n := rfl

/-- strncmp of the root path "/" against a path whose second byte is a real
character vanishes exactly on prefix lengths 0 and 1. -/
theorem strncmp_root (p : List Nat) (h0 : p.getD 0 0 = 47) (h1 : p.getD 1 0 ≠ 0) :
    ∀ n, (strncmp [47] p n = 0 ↔ n ≤ 1) := by
  have e47 : ([47] : List Nat).getD 0 0 = 47 := rfl
  have enil : (([] : List Nat)).getD 0 0 = 0 := rfl
  have etail : ([47] : List Nat).tail = [] := rfl
  have ht : p.tail.getD 0 0 ≠ 0 := by
    rw [getD_one_eq_tail]
    exact h1
  intro n
  match n with
  | 0 => simp [strncmp]
  | 1 =>
    rw [strncmp_succ, e47, h0]
    simp [strncmp]
  | n + 2 =>
    rw [strncmp_succ, e47, h0, etail]
    have e1 : (if (47 : Nat) ≠ 47 then ((47 : Nat) : Int) - ((47 : Nat) : Int)
        else if (47 : Nat) = 0 then 0 else strncmp [] p.tail (n + 1))
        = strncmp [] p.tail (n + 1) := by norm_num
    rw [e1, strncmp_succ, enil,
      if_pos (show (0 : Nat) ≠ p.tail.getD 0 0 from fun h => ht h.symm)]
    omega

/-- xipfs_path_classify_empty written as a single conditional. -/
theorem classify_eq (p : List Nat) :
    xipfs_path_classify_empty p =
      (if strncmp [47] p
            (if 0 < xipfs_path_last_slash p then xipfs_path_last_slash p - 1 else 0) = 0
       then XIPFS_PATH_CREATABLE else XIPFS_PATH_INVALID_BECAUSE_NOT_FOUND) := by
  unfold xipfs_path_classify_empty creatable
  simp only [beq_iff_eq, gt_iff_lt]

/-- The empty-filesystem classification is total: Creatable or
ParentMissing. -/
theorem classify_cases (p : List Nat) :
    xipfs_path_classify_empty p = XIPFS_PATH_CREATABLE ∨
    xipfs_path_classify_empty p = XIPFS_PATH_INVALID_BECAUSE_NOT_FOUND := by
  rw [classify_eq]
  by_cases hc : strncmp [47] p
      (if 0 < xipfs_path_last_slash p then xipfs_path_last_slash p - 1 else 0) = 0
  · exact Or.inl (if_pos hc)
  · exact Or.inr (if_neg hc)

/-- C7 (amended): in an empty file system a syntactically valid request
(nonempty, leading slash, no embedded null) is classified Creatable exactly
when its last-slash index is at most 2, that is when its dirname is "/" or
the first path component is a single character; every other request is
classified INVALID_BECAUSE_NOT_FOUND (ParentMissing). -/
theorem xipfs_C7_amended (p : List Nat)
    (hne : p ≠ []) (h0 : p.getD 0 0 = 47)
    (hz : ∀ i, i < p.length → p.getD i 0 ≠ 0) :
    (xipfs_path_classify_empty p = XIPFS_PATH_CREATABLE ↔ xipfs_path_last_slash p ≤ 2) ∧
    (2 < xipfs_path_last_slash p →
      xipfs_path_classify_empty p = XIPFS_PATH_INVALID_BECAUSE_NOT_FOUND) := by
  by_cases h1 : p.getD 1 0 = 0
  · have hlen : p.length ≤ 1 := by
      by_contra hlt
      exact hz 1 (by omega) h1
    have hp : p = [47] := by
      match p, hne with
      | [a], _ =>
        have ha : a = 47 := h0
        simp [ha]
      | a :: b :: t, _ => simp at hlen
    subst hp
    exact ⟨by decide, by decide⟩
  · have key : xipfs_path_classify_empty p = XIPFS_PATH_CREATABLE ↔
        xipfs_path_last_slash p ≤ 2 := by
      rw [classify_eq]
      rcases Nat.eq_zero_or_pos (xipfs_path_last_slash p) with hz0 | hpos
      · rw [hz0]
        simp [strncmp]
      · rw [if_pos hpos]
        have hiff := strncmp_root p h0 h1 (xipfs_path_last_slash p - 1)
        by_cases hc : strncmp [47] p (xipfs_path_last_slash p - 1) = 0
        · rw [if_pos hc]
          have hle : xipfs_path_last_slash p ≤ 2 := by
            have := hiff.mp hc
            omega
          simp [hle]
        · rw [if_neg hc]
          have hgt : ¬ (xipfs_path_last_slash p ≤ 2) := fun hle =>
            hc (hiff.mpr (by omega))
          unfold XIPFS_PATH_INVALID_BECAUSE_NOT_FOUND XIPFS_PATH_CREATABLE
          omega
    refine ⟨key, fun hgt => ?_⟩
    rcases classify_cases p with hcr | hnf
    · exfalso
      have := key.mp hcr
      omega
    · exact hnf

/-- C9 (amended): when a flush is needed and a flash operation fails (the
program stage fails, or the erase stage fails to produce an erased page),
xipfs_buffer_flush returns -1; the buffer structure is left exactly as it
was — it is emptied only by a successful flush — and the flash holds the
erase stage's result: the page is erased when the failure came at the
program stage, and unchanged when the erase itself failed. -/
theorem xipfs_C9_amended (s : Sys) (eraseOk progOk : Bool)
    (hnf : xipfs_buffer_need_flush s = true)
    (hfail : progOk = false ∨
      (eraseOk = false ∧ xipfs_flash_is_erased_page s.flash s.buf.page_num = false)) :
    (xipfs_buffer_flush_f eraseOk progOk s).2 = -1 ∧
    (xipfs_buffer_flush_f eraseOk progOk s).1.buf = s.buf ∧
    (xipfs_buffer_flush_f eraseOk progOk s).1.flash =
      (xipfs_flash_erase_page_f eraseOk s.flash s.buf.page_num).getD s.flash := by
  cases he : xipfs_flash_erase_page_f eraseOk s.flash s.buf.page_num with
  | none => simp [xipfs_buffer_flush_f, hnf, he]
  | some f2 =>
    have hp : progOk = false := by
      rcases hfail with h | ⟨he0, hner⟩
      · exact h
      · simp only [xipfs_flash_erase_page_f, he0, hner] at he
        simp [hner] at he
    simp [xipfs_buffer_flush_f, hnf, he, hp]

/-- Witness for xipfs_C9_amended: the dirty buffer of the counterexample and
a failing program stage. -/
theorem xipfs_C9_witness :
    xipfs_buffer_need_flush sysDirty = true ∧
    ((xipfs_buffer_flush_f true false sysDirty).2 = -1 ∧
      (xipfs_buffer_flush_f true false sysDirty).1.buf = sysDirty.buf ∧
      (xipfs_buffer_flush_f true false sysDirty).1.flash =
        (xipfs_flash_erase_page_f true sysDirty.flash sysDirty.buf.page_num).getD
          sysDirty.flash) :=
  ⟨by decide, xipfs_C9_amended sysDirty true false (by decide) (Or.inl rfl)⟩

/-- xipfs_flash_in only returns 0 or 1. -/
theorem xipfs_flash_in_zero_or_one (a : Nat) :
    xipfs_flash_in a = 0 ∨ xipfs_flash_in a = 1 := by
  unfold xipfs_flash_in
  split
  · exact Or.inr rfl
  · exact Or.inl rfl

/-- The `xipfs_flash_in < 0` guards can never fire. -/
theorem xipfs_flash_in_not_neg (a : Nat) : ¬ xipfs_flash_in a < 0 := by
  rcases xipfs_flash_in_zero_or_one a with h | h <;> rw [h] <;> omega

/-- The buffered write always succeeds, whatever the destination. -/
theorem xipfs_buffer_write_isSome (bs : List Nat) :
    ∀ s dest, (xipfs_buffer_write s dest bs).isSome = true := by
  induction bs with
  | nil => intro s dest; rfl
  | cons b bs ih =>
    intro s dest
    unfold xipfs_buffer_write
    rw [if_neg (xipfs_flash_in_not_neg dest)]
    exact ih _ _

/-- The buffered read always succeeds, whatever the source. -/
theorem xipfs_buffer_read_isSome (n : Nat) :
    ∀ s src, (xipfs_buffer_read s src n).isSome = true := by
  induction n with
  | zero => intro s src; rfl
  | succ n ih =>
    intro s src
    unfold xipfs_buffer_read
    rw [if_neg (xipfs_flash_in_not_neg src)]
    have h := ih (bufPeek s src).1 (src + 1)
    cases hr : xipfs_buffer_read (bufPeek s src).1 (src + 1) n with
    | none => rw [hr] at h; simp at h
    | some r => simp [hr]

/-- C10: the in-flash predicate only returns 0 or 1, so the `< 0`
address-validity guards of the buffered byte read and write never fire:
both operations succeed for every address and length, and a byte written to
an address outside the flash window (predicate value 0) is staged into the
RAM page buffer rather than rejected. -/
theorem xipfs_C10 :
    (∀ a, xipfs_flash_in a = 0 ∨ xipfs_flash_in a = 1) ∧
    (∀ s dest bs, (xipfs_buffer_write s dest bs).isSome = true) ∧
    (∀ s src n, (xipfs_buffer_read s src n).isSome = true) ∧
    (∀ s dest b, xipfs_flash_in dest = 0 →
      xipfs_buffer_write s dest [b] = some (bufPoke s dest b) ∧
      (bufPoke s dest b).buf.buf (dest % XIPFS_NVM_PAGE_SIZE) = b) := by
  refine ⟨xipfs_flash_in_zero_or_one, fun s dest bs => xipfs_buffer_write_isSome bs s dest,
    fun s src n => xipfs_buffer_read_isSome n s src, fun s dest b _ => ⟨?_, ?_⟩⟩
  · unfold xipfs_buffer_write
    rw [if_neg (xipfs_flash_in_not_neg dest)]
    rfl
  · simp [bufPoke]

/-- Witness for xipfs_C10 at the out-of-window address 600000 (the flash
window ends at 128 * 4096 = 524288). -/
theorem xipfs_C10_witness :
    xipfs_flash_in 600000 = 0 ∧
    (xipfs_buffer_write sysOneFile 600000 [7] = some (bufPoke sysOneFile 600000 7) ∧
      (bufPoke sysOneFile 600000 7).buf.buf (600000 % XIPFS_NVM_PAGE_SIZE) = 7) :=
  ⟨by decide, xipfs_C10.2.2.2 sysOneFile 600000 7 (by decide)⟩

/-- The halving scan decides the bounded universal. -/
theorem allRangeAux_iff (p : Nat → Bool) :
    ∀ fuel n lo, n ≤ fuel →
      (allRangeAux p fuel lo n = true ↔ ∀ i, i < n → p (lo + i) = true) := by
  intro fuel
  induction fuel with
  | zero =>
    intro n lo hn
    have hn0 : n = 0 := by omega
    subst hn0
    simp [allRangeAux]
  | succ fuel ih =>
    intro n lo hn
    cases n with
    | zero => simp [allRangeAux]
    | succ m =>
      cases m with
      | zero =>
        constructor
        · intro h i hi
          have hi0 : i = 0 := by omega
          subst hi0
          exact h
        · intro h
          exact h 0 (by omega)
      | succ m2 =>
        have heq : allRangeAux p (fuel + 1) lo (m2 + 2) =
            (allRangeAux p fuel lo ((m2 + 2) / 2) &&
             allRangeAux p fuel (lo + (m2 + 2) / 2) ((m2 + 2) - (m2 + 2) / 2)) := rfl
        rw [heq, Bool.and_eq_true, ih ((m2 + 2) / 2) lo (by omega),
          ih ((m2 + 2) - (m2 + 2) / 2) (lo + (m2 + 2) / 2) (by omega)]
        constructor
        · rintro ⟨h1, h2⟩ i hi
          by_cases hi2 : i < (m2 + 2) / 2
          · exact h1 i hi2
          · have h3 := h2 (i - (m2 + 2) / 2) (by omega)
            rw [show lo + (m2 + 2) / 2 + (i - (m2 + 2) / 2) = lo + i from by omega] at h3
            exact h3
        · intro h
          refine ⟨fun i hi => h i (by omega), fun i hi => ?_⟩
          have h3 := h ((m2 + 2) / 2 + i) (by omega)
          rw [show lo + ((m2 + 2) / 2 + i) = lo + (m2 + 2) / 2 + i from by omega] at h3
          exact h3

/-- allRange decides the bounded universal. -/
theorem allRange_iff (p : Nat → Bool) (lo n : Nat) :
    allRange p lo n = true ↔ ∀ i, i < n → p (lo + i) = true :=
  allRangeAux_iff p n n lo (Nat.le_refl n)

/-- An address is in page p exactly when its page number is p. -/
theorem inPage_iff (a p : Nat) :
    (xipfs_nvm_addr p ≤ a ∧ a < xipfs_nvm_addr (p + 1)) ↔ xipfs_nvm_page a = p := by
  unfold xipfs_nvm_addr xipfs_nvm_page XIPFS_NVM_BASE XIPFS_NVM_PAGE_SIZE
  omega

/-- Every address decomposes as its page base plus its page offset. -/
theorem page_decomp (a : Nat) :
    xipfs_nvm_addr (xipfs_nvm_page a) + a % XIPFS_NVM_PAGE_SIZE = a := by
  unfold xipfs_nvm_addr xipfs_nvm_page XIPFS_NVM_BASE XIPFS_NVM_PAGE_SIZE
  omega

/-- Erasing one page leaves every other address unchanged. -/
theorem nvm_erase_outside (f : Flash) (p a : Nat) (h : xipfs_nvm_page a ≠ p) :
    xipfs_nvm_erase f p a = f a := by
  unfold xipfs_nvm_erase
  rw [if_neg]
  intro hc
  exact h ((inPage_iff a p).mp hc)

/-- xipfs_flash_erase_page leaves every other page unchanged. -/
theorem erase_page_outside (f : Flash) (p a : Nat) (h : xipfs_nvm_page a ≠ p) :
    xipfs_flash_erase_page f p a = f a := by
  unfold xipfs_flash_erase_page
  split
  · rfl
  · exact nvm_erase_outside f p a h

/-- When the buffer state is KO the view is the raw flash. -/
theorem bufView_of_ok_false (s : Sys) (h : s.buf.ok = false) : bufView s = s.flash := by
  funext a
  unfold bufView
  rw [if_neg]
  intro hc
  rw [h] at hc
  exact Bool.false_ne_true hc.1

/-- need_flush implies the buffer state is OK. -/
theorem need_flush_ok (s : Sys) (h : xipfs_buffer_need_flush s = true) : s.buf.ok = true := by
  unfold xipfs_buffer_need_flush at h
  exact (Bool.and_eq_true _ _ |>.mp h).1

/-- When no flush is needed the view is the raw flash. -/
theorem bufView_of_not_need (s : Sys) (h : xipfs_buffer_need_flush s = false) :
    bufView s = s.flash := by
  cases hok : s.buf.ok with
  | false => exact bufView_of_ok_false s hok
  | true =>
    unfold xipfs_buffer_need_flush at h
    rw [hok] at h
    simp only [Bool.true_and, Bool.not_eq_false'] at h
    have hall := (allRange_iff _ 0 XIPFS_NVM_PAGE_SIZE).mp h
    funext a
    unfold bufView
    split
    · rename_i hc
      rcases hc with ⟨_, hpg⟩
      have hlt : a % XIPFS_NVM_PAGE_SIZE < XIPFS_NVM_PAGE_SIZE := by
        unfold XIPFS_NVM_PAGE_SIZE
        omega
      have := hall (a % XIPFS_NVM_PAGE_SIZE) hlt
      rw [Nat.zero_add, beq_iff_eq] at this
      rw [this, ← hpg, page_decomp a]
    · rfl

/-- Loading a page makes the view the raw flash. -/
theorem bufView_load (s : Sys) (num : Nat) :
    bufView (xipfs_buffer_load s num) = s.flash := by
  funext a
  unfold bufView xipfs_buffer_load
  dsimp only
  split
  · rename_i hc
    rw [← hc.2, page_decomp a]
  · rfl

/-- The flash after a flush is the view before it. -/
theorem flush_flash (s : Sys) : (xipfs_buffer_flush s).flash = bufView s := by
  unfold xipfs_buffer_flush
  cases hnf : xipfs_buffer_need_flush s with
  | false =>
    rw [if_pos rfl]
    exact (bufView_of_not_need s hnf).symm
  | true =>
    rw [if_neg (by simp)]
    have hok := need_flush_ok s hnf
    funext a
    dsimp only
    unfold flashProgramPage
    by_cases hpg : xipfs_nvm_page a = s.buf.page_num
    · rw [if_pos ((inPage_iff a s.buf.page_num).mpr hpg)]
      unfold bufView
      rw [if_pos ⟨hok, hpg⟩]
      have : a - xipfs_nvm_addr s.buf.page_num = a % XIPFS_NVM_PAGE_SIZE := by
        have hd := page_decomp a
        rw [hpg] at hd
        omega
      rw [this]
    · rw [if_neg (fun hc => hpg ((inPage_iff a s.buf.page_num).mp hc))]
      rw [erase_page_outside _ _ _ hpg]
      unfold bufView
      rw [if_neg (fun hc => hpg hc.2)]

/-- A flush does not change the view. -/
theorem flush_view (s : Sys) : bufView (xipfs_buffer_flush s) = bufView s := by
  cases hnf : xipfs_buffer_need_flush s with
  | false =>
    unfold xipfs_buffer_flush
    rw [hnf, if_pos rfl]
  | true =>
    have hok : (xipfs_buffer_flush s).buf.ok = false := by
      unfold xipfs_buffer_flush
      rw [hnf, if_neg (by simp)]
      rfl
    rw [bufView_of_ok_false _ hok, flush_flash]

/-- bufPrep preserves the view and leaves the buffer OK on the requested
page. -/
theorem bufPrep_spec (s : Sys) (num : Nat) :
    bufView (bufPrep s num) = bufView s ∧
    (bufPrep s num).buf.ok = true ∧ (bufPrep s num).buf.page_num = num := by
  unfold bufPrep
  cases hok : s.buf.ok with
  | false =>
    rw [if_pos rfl]
    exact ⟨(bufView_load s num).trans (bufView_of_ok_false s hok).symm, rfl, rfl⟩
  | true =>
    rw [if_neg (by simp)]
    by_cases hch : xipfs_buffer_page_changed s num = true
    · rw [if_pos hch]
      refine ⟨?_, rfl, rfl⟩
      rw [bufView_load, flush_flash]
    · rw [if_neg hch]
      have hpg : s.buf.page_num = num := by
        unfold xipfs_buffer_page_changed at hch
        simpa using hch
      exact ⟨rfl, hok, hpg⟩

/-- bufPoke updates the view at exactly the target address. -/
theorem bufPoke_view (s : Sys) (ptr b : Nat) (a : Nat) :
    bufView (bufPoke s ptr b) a = if a = ptr then b else bufView s a := by
  rcases bufPrep_spec s (xipfs_nvm_page ptr) with ⟨hview, hok, hpg⟩
  unfold bufPoke
  dsimp only
  by_cases ha : a = ptr
  · subst ha
    unfold bufView
    dsimp only
    rw [if_pos ⟨hok, hpg.symm⟩, if_pos rfl, if_pos rfl]
  · rw [if_neg ha]
    rw [← hview]
    unfold bufView
    dsimp only
    by_cases hcond : (bufPrep s (xipfs_nvm_page ptr)).buf.ok = true ∧
        xipfs_nvm_page a = (bufPrep s (xipfs_nvm_page ptr)).buf.page_num
    · rw [if_pos hcond, if_pos hcond]
      have hne : a % XIPFS_NVM_PAGE_SIZE ≠ ptr % XIPFS_NVM_PAGE_SIZE := by
        intro hmod
        apply ha
        have h1 := page_decomp a
        have h2 := page_decomp ptr
        rw [hcond.2, hpg] at h1
        rw [hmod] at h1
        omega
      rw [if_neg hne]
    · rw [if_neg hcond, if_neg hcond]

/-- bufPeek returns the view at the address and preserves the view. -/
theorem bufPeek_spec (s : Sys) (ptr : Nat) :
    (bufPeek s ptr).2 = bufView s ptr ∧ bufView (bufPeek s ptr).1 = bufView s := by
  rcases bufPrep_spec s (xipfs_nvm_page ptr) with ⟨hview, hok, hpg⟩
  constructor
  · unfold bufPeek
    dsimp only
    rw [← hview]
    unfold bufView
    rw [if_pos ⟨hok, hpg.symm⟩]
  · exact hview

/-- Below the boundary lo, both the view and the raw flash of s agree with
the reference flash g.  The write positions of the C8 sequence all lie at
or above lo, so this is the frame that keeps the record header readable. -/
def agreesBelow (s : Sys) (g : Flash) (lo : Nat) : Prop :=
  ∀ a, a < lo → bufView s a = g a ∧ s.flash a = g a

/-- A flush preserves the below-boundary agreement. -/
theorem agreesBelow_flush (s : Sys) (g : Flash) (lo : Nat) (h : agreesBelow s g lo) :
    agreesBelow (xipfs_buffer_flush s) g lo := by
  intro a ha
  rw [flush_view, flush_flash]
  exact ⟨(h a ha).1, (h a ha).1⟩

/-- A page load preserves the below-boundary agreement. -/
theorem agreesBelow_load (s : Sys) (g : Flash) (lo num : Nat) (h : agreesBelow s g lo) :
    agreesBelow (xipfs_buffer_load s num) g lo := by
  intro a ha
  rw [bufView_load]
  exact ⟨(h a ha).2, (h a ha).2⟩

/-- bufPrep preserves the below-boundary agreement. -/
theorem agreesBelow_prep (s : Sys) (g : Flash) (lo num : Nat) (h : agreesBelow s g lo) :
    agreesBelow (bufPrep s num) g lo := by
  unfold bufPrep
  split
  · exact agreesBelow_load s g lo num h
  · split
    · exact agreesBelow_load _ g lo num (agreesBelow_flush s g lo h)
    · exact h

/-- A poke at or above the boundary preserves the agreement. -/
theorem agreesBelow_poke (s : Sys) (g : Flash) (lo ptr b : Nat) (hlo : lo ≤ ptr)
    (h : agreesBelow s g lo) : agreesBelow (bufPoke s ptr b) g lo := by
  intro a ha
  have hprep := agreesBelow_prep s g lo (xipfs_nvm_page ptr) h
  constructor
  · rw [bufPoke_view, if_neg (by omega)]
    exact (h a ha).1
  · exact (hprep a ha).2

/-- A peek preserves the agreement. -/
theorem agreesBelow_peek (s : Sys) (g : Flash) (lo ptr : Nat) (h : agreesBelow s g lo) :
    agreesBelow (bufPeek s ptr).1 g lo :=
  agreesBelow_prep s g lo (xipfs_nvm_page ptr) h

/-- The C-string scan reads only the fuel + 1 bytes from addr on. -/
theorem cstrScan_congr (f g : Flash) :
    ∀ fuel addr, (∀ j, j ≤ fuel → f (addr + j) = g (addr + j)) →
      cstrScan f addr fuel = cstrScan g addr fuel := by
  intro fuel
  induction fuel with
  | zero =>
    intro addr h
    have h0 := h 0 (by omega)
    unfold cstrScan
    rw [show addr + 0 = addr from rfl] at h0
    rw [h0]
  | succ fuel ih =>
    intro addr h
    have h0 := h 0 (by omega)
    rw [show addr + 0 = addr from rfl] at h0
    unfold cstrScan
    rw [h0, ih (addr + 1) (fun j hj => by
      rw [show addr + 1 + j = addr + (j + 1) from by omega]
      exact h (j + 1) (by omega))]

/-- readWord32 reads only the four bytes from addr on. -/
theorem readWord32_congr (f g : Flash) (addr : Nat)
    (h : ∀ j, j ≤ 3 → f (addr + j) = g (addr + j)) :
    readWord32 f addr = readWord32 g addr := by
  have h0 := h 0 (by omega)
  have h1 := h 1 (by omega)
  have h2 := h 2 (by omega)
  have h3 := h 3 (by omega)
  rw [show addr + 0 = addr from rfl] at h0
  unfold readWord32
  rw [h0, h1, h2, h3]

/-- Record validation reads only the sizeof(xipfs_file_t) header bytes. -/
theorem filp_check_congr (f g : Flash) (filp : Nat)
    (h : ∀ a, filp ≤ a → a < filp + sizeofXipfsFile → f a = g a) :
    xipfs_file_filp_check f filp = xipfs_file_filp_check g filp := by
  have hsz : sizeofXipfsFile = 420 := rfl
  have hpm : XIPFS_PATH_MAX = 64 := rfl
  have hnext : fldNext f filp = fldNext g filp := by
    apply readWord32_congr
    intro j hj
    apply h <;> omega
  have hres : fldReserved f filp = fldReserved g filp := by
    apply readWord32_congr
    intro j hj
    apply h
    · omega
    · unfold fldReserved at *
      omega
  have hexec : fldExec f filp = fldExec g filp := by
    apply readWord32_congr
    intro j hj
    apply h <;> omega
  have hpath : xipfs_file_path_check_flash f (filp + 4) =
      xipfs_file_path_check_flash g (filp + 4) := by
    unfold xipfs_file_path_check_flash
    have h4 : f (filp + 4) = g (filp + 4) := by
      apply h <;> omega
    rw [h4, cstrScan_congr f g XIPFS_PATH_MAX (filp + 4) (fun j hj => by
      apply h <;> omega)]
  unfold xipfs_file_filp_check
  rw [hnext, hres, hexec, hpath]

/-- The reserved field congruence alone. -/
theorem fldReserved_congr (f g : Flash) (filp : Nat)
    (h : ∀ a, filp ≤ a → a < filp + sizeofXipfsFile → f a = g a) :
    fldReserved f filp = fldReserved g filp := by
  have hsz : sizeofXipfsFile = 420 := rfl
  apply readWord32_congr
  intro j hj
  apply h <;> omega

/-- Under a validated header, xipfs_file_write_8 at the Nat position p is
exactly a buffer poke at filp + sizeof(xipfs_file_t) + p. -/
theorem file_write_8_eq (s : Sys) (filp p b : Nat)
    (hchk : xipfs_file_filp_check s.flash filp = true)
    (hp : sizeofXipfsFile + p < fldReserved s.flash filp) :
    xipfs_file_write_8 s filp ((p : Nat) : Int) b =
      some (bufPoke s (filp + sizeofXipfsFile + p) b) := by
  have hsz : sizeofXipfsFile = 420 := rfl
  have hmax : xipfs_file_get_max_pos s.flash filp =
      (fldReserved s.flash filp : Int) - (sizeofXipfsFile : Int) := by
    unfold xipfs_file_get_max_pos
    rw [hchk]
    simp
  unfold xipfs_file_write_8
  rw [hchk, if_neg (by simp), hmax, if_neg (by omega), if_neg (by push_neg; omega)]
  rw [Int.toNat_natCast]
  unfold xipfs_buffer_write_8 xipfs_buffer_write
  rw [if_neg (xipfs_flash_in_not_neg _)]
  rfl

/-- Under a validated header, xipfs_file_read_8 at the Nat position p is
exactly a buffer peek at filp + sizeof(xipfs_file_t) + p, and it returns the
view at that address. -/
theorem file_read_8_eq (s : Sys) (filp p : Nat)
    (hchk : xipfs_file_filp_check s.flash filp = true)
    (hp : sizeofXipfsFile + p < fldReserved s.flash filp) :
    xipfs_file_read_8 s filp ((p : Nat) : Int) =
      some ((bufPeek s (filp + sizeofXipfsFile + p)).1,
            bufView s (filp + sizeofXipfsFile + p)) := by
  have hsz : sizeofXipfsFile = 420 := rfl
  have hmax : xipfs_file_get_max_pos s.flash filp =
      (fldReserved s.flash filp : Int) - (sizeofXipfsFile : Int) := by
    unfold xipfs_file_get_max_pos
    rw [hchk]
    simp
  unfold xipfs_file_read_8
  rw [hchk, if_neg (by simp), hmax, if_neg (by omega), if_neg (by push_neg; omega)]
  rw [Int.toNat_natCast]
  unfold xipfs_buffer_read_8 xipfs_buffer_read
  rw [if_neg (xipfs_flash_in_not_neg _)]
  rw [show xipfs_buffer_read (bufPeek s (filp + sizeofXipfsFile + p)).1
      (filp + sizeofXipfsFile + p + 1) 0 = some ((bufPeek s (filp + sizeofXipfsFile + p)).1, [])
    from rfl]
  rw [(bufPeek_spec s (filp + sizeofXipfsFile + p)).1]
  rfl

/-- Write-sequence induction for C8: after k of the n writes (with the
requested intervening flushes) the sequence has succeeded, the state still
agrees with the initial flash below the write window, and the view holds
the k bytes written so far. -/
theorem fileWriteSeq_spec (s0 : Sys) (filp o n : Nat) (b : Nat → Nat) (fls : Nat → Bool)
    (hbuf : s0.buf.ok = false)
    (hchk : xipfs_file_filp_check s0.flash filp = true)
    (hres : sizeofXipfsFile + o + n ≤ fldReserved s0.flash filp) :
    ∀ k, k ≤ n → ∃ s1, fileWriteSeq filp o b fls s0 k = some s1 ∧
      agreesBelow s1 s0.flash (filp + sizeofXipfsFile + o) ∧
      (∀ j, j < k → bufView s1 (filp + sizeofXipfsFile + o + j) = b j) := by
  intro k
  induction k with
  | zero =>
    intro _
    refine ⟨s0, rfl, fun a _ => ?_, by omega⟩
    rw [bufView_of_ok_false s0 hbuf]
    exact ⟨rfl, rfl⟩
  | succ k ih =>
    intro hk
    obtain ⟨s1, hseq, hagree, hview⟩ := ih (by omega)
    have hsz : sizeofXipfsFile = 420 := rfl
    have hflash : ∀ a, filp ≤ a → a < filp + sizeofXipfsFile → s1.flash a = s0.flash a :=
      fun a _ h2 => (hagree a (by omega)).2
    have hchk1 : xipfs_file_filp_check s1.flash filp = true := by
      rw [filp_check_congr s1.flash s0.flash filp hflash]
      exact hchk
    have hres1 : fldReserved s1.flash filp = fldReserved s0.flash filp :=
      fldReserved_congr _ _ _ hflash
    have hw := file_write_8_eq s1 filp (o + k) (b k) hchk1 (by rw [hres1]; omega)
    refine ⟨if fls k then xipfs_buffer_flush (bufPoke s1 (filp + sizeofXipfsFile + (o + k)) (b k))
        else bufPoke s1 (filp + sizeofXipfsFile + (o + k)) (b k), ?_, ?_, ?_⟩
    · simp only [fileWriteSeq, hseq, hw]
    · have hpoke := agreesBelow_poke s1 s0.flash (filp + sizeofXipfsFile + o)
        (filp + sizeofXipfsFile + (o + k)) (b k) (by omega) hagree
      split
      · exact agreesBelow_flush _ _ _ hpoke
      · exact hpoke
    · intro j hj
      have hview2 : bufView (bufPoke s1 (filp + sizeofXipfsFile + (o + k)) (b k))
          (filp + sizeofXipfsFile + o + j) = b j := by
        rw [bufPoke_view]
        by_cases hjk : j = k
        · subst hjk
          rw [if_pos (by omega)]
        · rw [if_neg (by omega)]
          exact hview j (by omega)
      split
      · rw [flush_view]
        exact hview2
      · exact hview2

/-- Read-sequence induction for C8: under a valid header visible below the
boundary, reading cnt bytes from position pos returns the views at those
addresses and neither the view nor the below-boundary agreement changes. -/
theorem fileReadSeq_spec (g : Flash) (filp lo : Nat) (hlo : filp + sizeofXipfsFile ≤ lo)
    (hchk : xipfs_file_filp_check g filp = true) :
    ∀ cnt pos s, agreesBelow s g lo →
      sizeofXipfsFile + pos + cnt ≤ fldReserved g filp →
      ∃ s2, fileReadSeq filp s pos cnt =
          some (s2, (List.range cnt).map fun j => bufView s (filp + sizeofXipfsFile + (pos + j))) ∧
        agreesBelow s2 g lo := by
  intro cnt
  induction cnt with
  | zero =>
    intro pos s hag _
    exact ⟨s, rfl, hag⟩
  | succ cnt ih =>
    intro pos s hag hb
    have hsz : sizeofXipfsFile = 420 := rfl
    have hflash : ∀ a, filp ≤ a → a < filp + sizeofXipfsFile → s.flash a = g a :=
      fun a _ h2 => (hag a (by omega)).2
    have hchk1 : xipfs_file_filp_check s.flash filp = true := by
      rw [filp_check_congr s.flash g filp hflash]
      exact hchk
    have hres1 : fldReserved s.flash filp = fldReserved g filp :=
      fldReserved_congr _ _ _ hflash
    have hr := file_read_8_eq s filp pos hchk1 (by rw [hres1]; omega)
    obtain ⟨s2, hseq2, hag2⟩ := ih (pos + 1) (bufPeek s (filp + sizeofXipfsFile + pos)).1
      (agreesBelow_peek s g lo _ hag) (by omega)
    refine ⟨s2, ?_, hag2⟩
    simp only [fileReadSeq, hr, hseq2]
    have hpv : bufView (bufPeek s (filp + sizeofXipfsFile + pos)).1 =
        bufView s := (bufPeek_spec s _).2
    rw [hpv]
    have hlist : ((List.range (cnt + 1)).map fun j =>
          bufView s (filp + sizeofXipfsFile + (pos + j))) =
        bufView s (filp + sizeofXipfsFile + pos) ::
          ((List.range cnt).map fun j => bufView s (filp + sizeofXipfsFile + (pos + 1 + j))) := by
      rw [List.range_succ_eq_map, List.map_cons, List.map_map]
      refine congrArg₂ _ (by rw [Nat.add_zero]) ?_
      apply List.map_congr_left
      intro j _
      simp only [Function.comp]
      rw [show pos + (j + 1) = pos + 1 + j from by omega]
    rw [hlist]

/-- C8: for a record whose reserved span covers sizeof(header) + o + n,
writing bytes b 0, ..., b (n-1) at positions o, ..., o+n-1 through
xipfs_file_write_8 — with a page-buffer flush after any subset of the
writes — and then reading positions o, ..., o+n-1 back through
xipfs_file_read_8 returns exactly the written bytes. -/
theorem xipfs_C8 (s0 : Sys) (filp o n : Nat) (b : Nat → Nat) (fls : Nat → Bool)
    (hbuf : s0.buf.ok = false)
    (hchk : xipfs_file_filp_check s0.flash filp = true)
    (hres : sizeofXipfsFile + o + n ≤ fldReserved s0.flash filp) :
    ∃ s1 s2, fileWriteSeq filp o b fls s0 n = some s1 ∧
      fileReadSeq filp s1 o n = some (s2, (List.range n).map b) := by
  obtain ⟨s1, hw, hag, hview⟩ :=
    fileWriteSeq_spec s0 filp o n b fls hbuf hchk hres n (Nat.le_refl n)
  obtain ⟨s2, hr, _⟩ :=
    fileReadSeq_spec s0.flash filp (filp + sizeofXipfsFile + o) (by omega) hchk n o s1 hag
      (by omega)
  refine ⟨s1, s2, hw, ?_⟩
  rw [hr]
  have hlist : ((List.range n).map fun j => bufView s1 (filp + sizeofXipfsFile + (o + j))) =
      (List.range n).map b := by
    apply List.map_congr_left
    intro j hj
    rw [show filp + sizeofXipfsFile + (o + j) = filp + sizeofXipfsFile + o + j from by omega]
    exact hview j (List.mem_range.mp hj)
  rw [hlist]

/-- Witness for xipfs_C8: the one-file system, record at 4096 (reserved
4096), two bytes 65, 66 written at positions 10 and 11 with a flush after
every write, then read back. -/
theorem xipfs_C8_witness :
    sysOneFile.buf.ok = false ∧
    xipfs_file_filp_check sysOneFile.flash 4096 = true ∧
    sizeofXipfsFile + 10 + 2 ≤ fldReserved sysOneFile.flash 4096 ∧
    (∃ s1 s2, fileWriteSeq 4096 10 (fun k => 65 + k) (fun _ => true) sysOneFile 2 = some s1 ∧
      fileReadSeq 4096 s1 10 2 = some (s2, (List.range 2).map fun k => 65 + k)) :=
  ⟨rfl, by decide, by decide,
    xipfs_C8 sysOneFile 4096 10 2 (fun k => 65 + k) (fun _ => true) rfl (by decide) (by decide)⟩

/-- A buffered list write always succeeds and updates the view to the
written bytes on the written range. -/
theorem xipfs_buffer_write_view (bs : List Nat) :
    ∀ s dest, ∃ s1, xipfs_buffer_write s dest bs = some s1 ∧
      ∀ a, bufView s1 a = if dest ≤ a ∧ a < dest + bs.length then bs.getD (a - dest) 0
                          else bufView s a := by
  induction bs with
  | nil =>
    intro s dest
    refine ⟨s, rfl, fun a => ?_⟩
    rw [if_neg (by simp only [List.length_nil, Nat.add_zero]; omega)]
  | cons b bs ih =>
    intro s dest
    obtain ⟨s1, hw, hview⟩ := ih (bufPoke s dest b) (dest + 1)
    refine ⟨s1, ?_, ?_⟩
    · unfold xipfs_buffer_write
      rw [if_neg (xipfs_flash_in_not_neg dest)]
      exact hw
    · intro a
      have hlen : (b :: bs).length = bs.length + 1 := rfl
      rw [hview a]
      by_cases h1 : dest + 1 ≤ a ∧ a < dest + 1 + bs.length
      · rw [if_pos h1, if_pos (by rw [hlen]; omega)]
        rw [show a - dest = (a - (dest + 1)) + 1 from by omega]
        rfl
      · rw [if_neg h1, bufPoke_view]
        by_cases h2 : a = dest
        · subst h2
          rw [if_pos rfl, if_pos (by rw [hlen]; omega), Nat.sub_self]
          rfl
        · rw [if_neg h2, if_neg (by rw [hlen]; omega)]

/-- The header template serializes to exactly sizeof(xipfs_file_t) bytes. -/
theorem headerBytes_length (next : Nat) (path : List Nat) (reserved exec : Nat) :
    (headerBytes next path reserved exec).length = sizeofXipfsFile := by
  have hsz : sizeofXipfsFile = 420 := rfl
  simp [headerBytes, le32, XIPFS_PATH_MAX, XIPFS_FILESIZE_SLOT_MAX, hsz]
  omega

/-- The first four header bytes are the little-endian next field. -/
theorem headerBytes_getD (next : Nat) (path : List Nat) (reserved exec : Nat) :
    (headerBytes next path reserved exec).getD 0 0 = next % 256 ∧
    (headerBytes next path reserved exec).getD 1 0 = next / 256 % 256 ∧
    (headerBytes next path reserved exec).getD 2 0 = next / 65536 % 256 ∧
    (headerBytes next path reserved exec).getD 3 0 = next / 16777216 % 256 :=
  ⟨rfl, rfl, rfl, rfl⟩

/-- Recomposing the four little-endian bytes of a 32-bit value. -/
theorem le32_recompose (v : Nat) (hv : v < U32) :
    v % 256 + 256 * (v / 256 % 256) + 65536 * (v / 65536 % 256) +
      16777216 * (v / 16777216 % 256) = v := by
  have hU : U32 = 4294967296 := rfl
  omega

/-- Writing the header template at filp through the buffer and flushing
makes the stored next field read back as the value put into the template. -/
theorem new_file_write_next (s : Sys) (filp next : Nat) (path : List Nat)
    (reserved exec : Nat) (hnext : next < U32) :
    ∃ s1, xipfs_buffer_write s filp (headerBytes next path reserved exec) = some s1 ∧
      readWord32 (xipfs_buffer_flush s1).flash filp = next := by
  obtain ⟨s1, hw, hview⟩ := xipfs_buffer_write_view (headerBytes next path reserved exec) s filp
  refine ⟨s1, hw, ?_⟩
  rw [flush_flash]
  have hsz : sizeofXipfsFile = 420 := rfl
  have hlen := headerBytes_length next path reserved exec
  obtain ⟨g0, g1, g2, g3⟩ := headerBytes_getD next path reserved exec
  have h0 := hview filp
  have h1 := hview (filp + 1)
  have h2 := hview (filp + 2)
  have h3 := hview (filp + 3)
  rw [if_pos (by rw [hlen]; omega), Nat.sub_self, g0] at h0
  rw [if_pos (by rw [hlen]; omega), show filp + 1 - filp = 1 from by omega, g1] at h1
  rw [if_pos (by rw [hlen]; omega), show filp + 2 - filp = 2 from by omega, g2] at h2
  rw [if_pos (by rw [hlen]; omega), show filp + 3 - filp = 3 from by omega, g3] at h3
  unfold readWord32
  rw [h0, h1, h2, h3]
  exact le32_recompose next hnext

/-- C4: xipfs_fs_new_file computes reserved as round_up(size + header,
page) (one page when size = 0), and: fewer reserved pages than free pages —
the created record's stored next field reads back as self + reserved;
equal — it reads back as self (filesystem full); more — NoSpace, and no
record is created. -/
theorem xipfs_C4 (s : Sys) (mp : Mount) (path : List Nat) (size exec : Nat)
    (filp : Nat) (fp : Int)
    (hpath : xipfs_file_path_check_list path = true)
    (hexec : exec = 0 ∨ exec = 1)
    (htn : xipfs_fs_tail_next s.flash mp = Except.ok filp)
    (hfp : xipfs_fs_free_pages s.flash mp = some fp)
    (hfilp : filp < U32) :
    (((newFileReserved size / XIPFS_NVM_PAGE_SIZE : Nat) : Int) < fp →
      ∃ s2, xipfs_fs_new_file s mp path size exec = some (filp, s2) ∧
        readWord32 s2.flash filp = (filp + newFileReserved size) % U32) ∧
    (((newFileReserved size / XIPFS_NVM_PAGE_SIZE : Nat) : Int) = fp →
      ∃ s2, xipfs_fs_new_file s mp path size exec = some (filp, s2) ∧
        readWord32 s2.flash filp = filp) ∧
    (fp < ((newFileReserved size / XIPFS_NVM_PAGE_SIZE : Nat) : Int) →
      xipfs_fs_new_file s mp path size exec = none) ∧
    (size = 0 → newFileReserved size = XIPFS_NVM_PAGE_SIZE) ∧
    (0 < size → size + sizeofXipfsFile + XIPFS_NVM_PAGE_SIZE ≤ U32 →
      size + sizeofXipfsFile ≤ newFileReserved size ∧
      newFileReserved size % XIPFS_NVM_PAGE_SIZE = 0 ∧
      newFileReserved size < size + sizeofXipfsFile + XIPFS_NVM_PAGE_SIZE) := by
  have hexec2 : ¬ (exec ≠ 0 ∧ exec ≠ 1) := by
    rcases hexec with h | h <;> simp [h]
  refine ⟨?_, ?_, ?_, ?_, ?_⟩
  · intro hlt
    obtain ⟨s1, hw, hword⟩ := new_file_write_next s filp
      ((filp + newFileReserved size) % U32) path (newFileReserved size) exec
      (by unfold U32; omega)
    refine ⟨xipfs_buffer_flush s1, ?_, hword⟩
    unfold xipfs_fs_new_file
    rw [hpath, if_neg (by simp), if_neg hexec2, htn]
    simp only [hfp]
    rw [if_pos hlt, hw]
  · intro heq
    obtain ⟨s1, hw, hword⟩ := new_file_write_next s filp (filp % U32) path
      (newFileReserved size) exec (by unfold U32; omega)
    have hmod : filp % U32 = filp := Nat.mod_eq_of_lt hfilp
    refine ⟨xipfs_buffer_flush s1, ?_, by rw [hword, hmod]⟩
    unfold xipfs_fs_new_file
    rw [hpath, if_neg (by simp), if_neg hexec2, htn]
    simp only [hfp]
    rw [if_neg (by omega), if_pos heq, hw]
  · intro hgt
    unfold xipfs_fs_new_file
    rw [hpath, if_neg (by simp), if_neg hexec2, htn]
    simp only [hfp]
    rw [if_neg (by omega), if_neg (by omega)]
  · intro h0
    subst h0
    rfl
  · intro hpos hbound
    have hsz : sizeofXipfsFile = 420 := rfl
    have hU : U32 = 4294967296 := rfl
    have hpg : XIPFS_NVM_PAGE_SIZE = 4096 := rfl
    unfold newFileReserved
    rw [if_pos hpos]
    rw [hsz, hU, hpg] at hbound ⊢
    have hmod : (size + 420 + (4096 - 1)) % 4294967296 = size + 420 + 4095 := by omega
    rw [hmod]
    omega

/-- Witness for xipfs_C4: empty file system on erased flash (mount pages
1..64), creating "/a" with size 0 and exec 0: one reserved page against 64
free pages, so the record lands at 4096 with next = 8192. -/
theorem xipfs_C4_witness :
    ((newFileReserved 0 / XIPFS_NVM_PAGE_SIZE : Nat) : Int) < 64 ∧
    (∃ s2, xipfs_fs_new_file sysEmpty mpEmpty [47, 97] 0 0 = some (4096, s2) ∧
      readWord32 s2.flash 4096 = (4096 + newFileReserved 0) % U32) :=
  ⟨by decide,
    (xipfs_C4 sysEmpty mpEmpty [47, 97] 0 0 4096 64 (by decide) (Or.inl rfl)
      rfl rfl (by decide)).1 (by decide)⟩

/-- Witness for xipfs_C7_amended at the path "/a". -/
theorem xipfs_C7_witness :
    ([47, 97] : List Nat) ≠ [] ∧
    ((xipfs_path_classify_empty [47, 97] = XIPFS_PATH_CREATABLE ↔
        xipfs_path_last_slash [47, 97] ≤ 2) ∧
      (2 < xipfs_path_last_slash [47, 97] →
        xipfs_path_classify_empty [47, 97] = XIPFS_PATH_INVALID_BECAUSE_NOT_FOUND)) :=
  ⟨by decide, xipfs_C7_amended [47, 97] (by decide) (by decide) (by decide)⟩

end Xipfs
